import Mathlib

/-!
Shallow embedding of the PositionMath engine of the Uniswap-v3 impermanent-loss
calculator (`streamlit_app.py`).  Python floats are modelled as real numbers;
pure-Python float division, which raises `ZeroDivisionError` on a zero
denominator, is modelled with `Except`, and the `float("nan")` sentinel
returned by the X-asset liquidity solver on a non-positive denominator is
modelled as a typed `invalidRange` error.  The curve-plotting loop is
different: its samples come from `np.linspace`, so its arithmetic is numpy
float64 arithmetic, where division by zero does not raise but yields a
non-finite value (`inf`/`nan`, with a RuntimeWarning); that non-finite
outcome is modelled as an `Option ℝ` entry that is `none`.  All other
arithmetic is exact real arithmetic.
-/

/-- Failure kinds of the engine: the not-a-number sentinel of the X-asset
solver (`invalidRange`) and a Python `ZeroDivisionError` (`divisionByZero`). -/
inductive CalcError where
  | invalidRange : CalcError
  | divisionByZero : CalcError
deriving DecidableEq

/-- `compute_L_from_x(x, p, pmin, pmax)`:
`denom = 2*sqrt(p) - sqrt(pmin) - p/sqrt(pmax)`; returns `float("nan")`
(modelled as `invalidRange`) when `denom <= 0`, else `p * x / denom`. -/
noncomputable def compute_L_from_x (x p pmin pmax : ℝ) : Except CalcError ℝ :=
  if 2 * Real.sqrt p - Real.sqrt pmin - p / Real.sqrt pmax ≤ 0 then
    Except.error CalcError.invalidRange
  else
    Except.ok (p * x / (2 * Real.sqrt p - Real.sqrt pmin - p / Real.sqrt pmax))

/-- `compute_L_from_y(y, p, pmin)`: `y / (sqrt(p) - sqrt(pmin))` with no
validation at all; the division itself raises (modelled `divisionByZero`)
exactly when the denominator is zero, i.e. at `p = pmin`. -/
noncomputable def compute_L_from_y (y p pmin : ℝ) : Except CalcError ℝ :=
  if Real.sqrt p - Real.sqrt pmin = 0 then
    Except.error CalcError.divisionByZero
  else
    Except.ok (y / (Real.sqrt p - Real.sqrt pmin))

/-- `compute_xpos(L, p, pmax) = L * (1/sqrt(p) - 1/sqrt(pmax))`. -/
noncomputable def compute_xpos (L p pmax : ℝ) : ℝ :=
  L * (1 / Real.sqrt p - 1 / Real.sqrt pmax)

/-- `compute_ypos(L, p, pmin) = L * (sqrt(p) - sqrt(pmin))`. -/
noncomputable def compute_ypos (L p pmin : ℝ) : ℝ :=
  L * (Real.sqrt p - Real.sqrt pmin)

/-- `x_amount(L, p, pmax) = L * (1/sqrt(p) - 1/sqrt(pmax))` (unclamped). -/
noncomputable def x_amount (L p pmax : ℝ) : ℝ :=
  L * (1 / Real.sqrt p - 1 / Real.sqrt pmax)

/-- `y_amount(L, p, pmin) = L * (sqrt(p) - sqrt(pmin))` (unclamped). -/
noncomputable def y_amount (L p pmin : ℝ) : ℝ :=
  L * (Real.sqrt p - Real.sqrt pmin)

/-- `x_amount_future(L, p_prime, pmin, pmax)`: `p_eff = max(p_prime, pmin)`,
then `L * (1/sqrt(p_eff) - 1/sqrt(pmax))` — clamped only from below. -/
noncomputable def x_amount_future (L p_prime pmin pmax : ℝ) : ℝ :=
  L * (1 / Real.sqrt (max p_prime pmin) - 1 / Real.sqrt pmax)

/-- `y_amount_future(L, p_prime, pmin)`: `p_eff = min(p_prime, pmax)` (the
Python function reads `pmax` from the enclosing scope; it is passed explicitly
here), then `L * (sqrt(p_eff) - sqrt(pmin))` — clamped only from above. -/
noncomputable def y_amount_future (L p_prime pmin pmax : ℝ) : ℝ :=
  L * (Real.sqrt (min p_prime pmax) - Real.sqrt pmin)

/-- `V_lp = x_new + (1/p_new) * y_new` with the clamped composition. -/
noncomputable def V_lp (L p_new pmin pmax : ℝ) : ℝ :=
  x_amount_future L p_new pmin pmax + (1 / p_new) * y_amount_future L p_new pmin pmax

/-- `V_hodl = x_init + (1/p_new) * y_init` where `x_init`, `y_init` are the
unclamped composition at the initial price. -/
noncomputable def V_hodl (L p_initial p_new pmin pmax : ℝ) : ℝ :=
  x_amount L p_initial pmax + (1 / p_new) * y_amount L p_initial pmin

/-- `IL = (V_hodl - V_lp) / V_hodl`; the Python division raises
`ZeroDivisionError` when `V_hodl == 0`, modelled as `divisionByZero`. -/
noncomputable def IL_eval (L pmin pmax p_initial p_new : ℝ) : Except CalcError ℝ :=
  if V_hodl L p_initial p_new pmin pmax = 0 then
    Except.error CalcError.divisionByZero
  else
    Except.ok ((V_hodl L p_initial p_new pmin pmax - V_lp L p_new pmin pmax) /
      V_hodl L p_initial p_new pmin pmax)

/-- One iteration of the `IL_vals` plotting loop at sample price `pprime`:
`Vlp = xp + yp/pprime`, `Vhodl = x_init + y_init/pprime`, then appends
`(Vhodl - Vlp)/Vhodl`.  The samples are `np.float64` scalars (the loop
iterates `np.linspace`), so a zero `Vhodl` does not raise: the division
yields `inf` or `nan` with a RuntimeWarning, and that value is appended like
any other.  The non-finite outcome of the zero denominator is modelled as
`none`, a defined quotient as `some`. -/
noncomputable def IL_point (L pmin pmax x_init y_init pprime : ℝ) : Option ℝ :=
  if x_init + y_init / pprime = 0 then
    none
  else
    some ((x_init + y_init / pprime -
      (x_amount_future L pprime pmin pmax + y_amount_future L pprime pmin pmax / pprime)) /
      (x_init + y_init / pprime))

/-- `IL_vals(L, range, p_initial, p_vals)`: the `for pprime in p_vals` loop,
with `x_init = x_amount(L, p_initial, pmax)` and
`y_init = y_amount(L, p_initial, pmin)`.  Every sample is evaluated and
appended in input order; nothing is skipped and nothing can raise, so the
loop is a total map producing one entry per sample. -/
noncomputable def IL_vals (L pmin pmax p_initial : ℝ) (p_vals : List ℝ) :
    List (Option ℝ) :=
  p_vals.map (IL_point L pmin pmax (x_amount L p_initial pmax) (y_amount L p_initial pmin))

/-- Modelled from the spec: the §4.4 curve contract by its own words — entries
whose `V_hodl` is zero are *omitted* from the output sequence.  (No such
omission exists in the source, which appends the non-finite quotient instead;
this definition exists only to be compared with `IL_vals`.) -/
noncomputable def IL_curve_spec (L pmin pmax p_initial : ℝ) (p_vals : List ℝ) : List ℝ :=
  p_vals.filterMap
    (IL_point L pmin pmax (x_amount L p_initial pmax) (y_amount L p_initial pmin))

/-! ### Concrete square roots used by witnesses and counterexamples -/

lemma sqrt_four : Real.sqrt 4 = 2 := by
  rw [show (4 : ℝ) = 2 ^ 2 by norm_num, Real.sqrt_sq (by norm_num : (0:ℝ) ≤ 2)]

lemma sqrt_sixteen : Real.sqrt 16 = 4 := by
  rw [show (16 : ℝ) = 4 ^ 2 by norm_num, Real.sqrt_sq (by norm_num : (0:ℝ) ≤ 4)]

lemma sqrt_quarter : Real.sqrt (1 / 4) = 1 / 2 := by
  rw [show (1 / 4 : ℝ) = (1 / 2) ^ 2 by norm_num,
    Real.sqrt_sq (by norm_num : (0:ℝ) ≤ 1 / 2)]

lemma sqrt_ninth : Real.sqrt (1 / 9) = 1 / 3 := by
  rw [show (1 / 9 : ℝ) = (1 / 3) ^ 2 by norm_num,
    Real.sqrt_sq (by norm_num : (0:ℝ) ≤ 1 / 3)]

/-! ### Shared algebra about the X-asset solver denominator -/

/-- The solver denominator equals the X-denominated value of the in-range
composition of one unit of liquidity, scaled by `p`. -/
lemma denom_eq (p pmin pmax : ℝ) :
    p * (1 / Real.sqrt p - 1 / Real.sqrt pmax) + (Real.sqrt p - Real.sqrt pmin)
      = 2 * Real.sqrt p - Real.sqrt pmin - p / Real.sqrt pmax := by
  have h1 : p * (1 / Real.sqrt p) = Real.sqrt p := by
    rw [mul_one_div, Real.div_sqrt]
  calc p * (1 / Real.sqrt p - 1 / Real.sqrt pmax) + (Real.sqrt p - Real.sqrt pmin)
      = p * (1 / Real.sqrt p) - p * (1 / Real.sqrt pmax)
          + (Real.sqrt p - Real.sqrt pmin) := by ring
    _ = Real.sqrt p - p / Real.sqrt pmax + (Real.sqrt p - Real.sqrt pmin) := by
          rw [h1, mul_one_div]
    _ = 2 * Real.sqrt p - Real.sqrt pmin - p / Real.sqrt pmax := by ring

/-- For `0 < pmin < p < pmax` the solver denominator is strictly positive. -/
lemma denom_pos_of_strictly_inside (p pmin pmax : ℝ) (h0 : 0 < pmin)
    (h1 : pmin < p) (h2 : p < pmax) :
    0 < 2 * Real.sqrt p - Real.sqrt pmin - p / Real.sqrt pmax := by
  have hp : 0 < p := h0.trans h1
  have hs : 0 < Real.sqrt p := Real.sqrt_pos.mpr hp
  have hm : Real.sqrt pmin < Real.sqrt p := Real.sqrt_lt_sqrt h0.le h1
  have hM : Real.sqrt p < Real.sqrt pmax := Real.sqrt_lt_sqrt hp.le h2
  have hdiv : p / Real.sqrt pmax < p / Real.sqrt p :=
    div_lt_div_of_pos_left hp hs hM
  rw [Real.div_sqrt] at hdiv
  linarith

/-- A position sized by the X-asset solver carries total value `amount`
when that value is denominated in asset X at price `p`. -/
lemma funded_value (amount p pmin pmax : ℝ) (hp : 0 < p)
    (hd : 2 * Real.sqrt p - Real.sqrt pmin - p / Real.sqrt pmax ≠ 0) :
    compute_xpos (p * amount / (2 * Real.sqrt p - Real.sqrt pmin - p / Real.sqrt pmax)) p pmax
      + compute_ypos (p * amount / (2 * Real.sqrt p - Real.sqrt pmin - p / Real.sqrt pmax)) p pmin / p
      = amount := by
  have hp0 : p ≠ 0 := ne_of_gt hp
  have key := denom_eq p pmin pmax
  unfold compute_xpos compute_ypos
  set A := 1 / Real.sqrt p - 1 / Real.sqrt pmax with hA
  set B := Real.sqrt p - Real.sqrt pmin with hB
  rw [← key] at hd ⊢
  field_simp
  ring

/-! ### C10 -/

/-- C10 (confirmed): with a positive solver denominator, the position bought
with `L = compute_L_from_x(amount, p, pmin, pmax)` satisfies
`compute_xpos + compute_ypos / p = amount` exactly: the X-funding solver
conserves funded value denominated in asset X, not the x-balance alone. -/
theorem C10_value_conservation (amount p pmin pmax L : ℝ) (ha : 0 ≤ amount)
    (hp : 0 < p) (hm : 0 < pmin) (hmm : pmin < pmax)
    (hd : 0 < 2 * Real.sqrt p - Real.sqrt pmin - p / Real.sqrt pmax)
    (hL : compute_L_from_x amount p pmin pmax = Except.ok L) :
    compute_xpos L p pmax + compute_ypos L p pmin / p = amount := by
  unfold compute_L_from_x at hL
  rw [if_neg (not_le.mpr hd)] at hL
  have hLval : L = p * amount / (2 * Real.sqrt p - Real.sqrt pmin - p / Real.sqrt pmax) :=
    (Except.ok.inj hL).symm
  subst hLval
  exact funded_value amount p pmin pmax hp (ne_of_gt hd)

/-- Witness for C10 at `amount = 2, p = 1, pmin = 1/4, pmax = 4`, where the
solver yields `L = 2` and the position holds `x = 1, y = 1`. -/
theorem C10_value_conservation_witness :
    compute_xpos 2 1 4 + compute_ypos 2 1 (1/4) / 1 = 2 := by
  have hd : (0:ℝ) < 2 * Real.sqrt 1 - Real.sqrt (1/4) - 1 / Real.sqrt 4 := by
    rw [Real.sqrt_one, sqrt_quarter, sqrt_four]; norm_num
  have hL : compute_L_from_x 2 1 (1/4) 4 = Except.ok 2 := by
    unfold compute_L_from_x
    rw [Real.sqrt_one, sqrt_quarter, sqrt_four]
    rw [if_neg (show ¬(2 * 1 - 1/2 - 1 / 2 : ℝ) ≤ 0 by norm_num)]
    simp only [Except.ok.injEq]
    norm_num
  exact C10_value_conservation 2 1 (1/4) 4 2 (by norm_num) (by norm_num)
    (by norm_num) (by norm_num) hd hL

/-! ### C1 -/

/-- Counterexample to C1 as stated: at `amount = 1, p = 4, pmin = 1, pmax = 16`
(with `p` strictly inside the range) the solver yields `L = 2`, but the
x-component of the resulting composition is `1/2`, not the funded amount `1`. -/
theorem C1_xpos_not_amount :
    compute_L_from_x 1 4 1 16 = Except.ok 2 ∧
    compute_xpos 2 4 16 = 1/2 ∧ ((1/2 : ℝ) ≠ 1) := by
  refine ⟨?_, ?_, by norm_num⟩
  · unfold compute_L_from_x
    rw [sqrt_four, Real.sqrt_one, sqrt_sixteen]
    rw [if_neg (show ¬(2 * 2 - 1 - 4 / 4 : ℝ) ≤ 0 by norm_num)]
    simp only [Except.ok.injEq]
    norm_num
  · unfold compute_xpos
    rw [sqrt_four, sqrt_sixteen]
    norm_num

/-- C1 (corrected): for `p` strictly inside the range, the X-funded round
trip conserves the funded amount as a value denominated in asset X,
`x_pos + y_pos / p = amount`; the x-component alone does not equal `amount`. -/
theorem C1_funding_value_round_trip (amount p pmin pmax L : ℝ) (ha : 0 ≤ amount)
    (h0 : 0 < pmin) (h1 : pmin < p) (h2 : p < pmax)
    (hL : compute_L_from_x amount p pmin pmax = Except.ok L) :
    compute_xpos L p pmax + compute_ypos L p pmin / p = amount := by
  have hd := denom_pos_of_strictly_inside p pmin pmax h0 h1 h2
  have hp : 0 < p := h0.trans h1
  unfold compute_L_from_x at hL
  rw [if_neg (not_le.mpr hd)] at hL
  have hLval : L = p * amount / (2 * Real.sqrt p - Real.sqrt pmin - p / Real.sqrt pmax) :=
    (Except.ok.inj hL).symm
  subst hLval
  exact funded_value amount p pmin pmax hp (ne_of_gt hd)

/-- Witness for C1 at `amount = 1, p = 4, pmin = 1, pmax = 16`, where `L = 2`
and the position holds `x = 1/2, y = 2`, worth `1/2 + 2/4 = 1` in asset X. -/
theorem C1_funding_value_round_trip_witness :
    compute_xpos 2 4 16 + compute_ypos 2 4 1 / 4 = 1 := by
  have hL : compute_L_from_x 1 4 1 16 = Except.ok 2 := by
    unfold compute_L_from_x
    rw [sqrt_four, Real.sqrt_one, sqrt_sixteen]
    rw [if_neg (show ¬(2 * 2 - 1 - 4 / 4 : ℝ) ≤ 0 by norm_num)]
    simp only [Except.ok.injEq]
    norm_num
  exact C1_funding_value_round_trip 1 4 1 16 2 (by norm_num) (by norm_num)
    (by norm_num) (by norm_num) hL

/-! ### C2 -/

/-- C2 (code bug): at `L = 1, pmin = 1, pmax = 4` and price `p = 1/4 ≤ pmin`,
the y-component of the future composition is `-1/2`, not its plateau value `0`
at `pmin`; only the x-component is clamped.  The script's own markdown states
the position becomes all-x below `pmin`. -/
theorem C2_plateau_violated :
    y_amount_future 1 (1/4) 1 4 = -(1/2) ∧
    y_amount_future 1 1 1 4 = 0 ∧
    x_amount_future 1 (1/4) 1 4 = x_amount_future 1 1 1 4 := by
  refine ⟨?_, ?_, ?_⟩
  · unfold y_amount_future
    rw [show min (1/4 : ℝ) 4 = 1/4 from min_eq_left (by norm_num),
      sqrt_quarter, Real.sqrt_one]
    norm_num
  · unfold y_amount_future
    rw [show min (1 : ℝ) 4 = 1 from min_eq_left (by norm_num), Real.sqrt_one]
    ring
  · unfold x_amount_future
    rw [show max (1/4 : ℝ) 1 = 1 from max_eq_right (by norm_num),
      show max (1 : ℝ) 1 = 1 from max_self 1]

/-! ### C3 -/

/-- C3 (code bug): composition outputs are not always nonnegative: at
`L = 1, pmin = 1, pmax = 4, p = 1/9 > 0` the y-output is `-2/3 < 0`,
because the y-formula is not clamped from below. -/
theorem C3_nonnegativity_violated :
    y_amount_future 1 (1/9) 1 4 = -(2/3) ∧ (-(2/3) : ℝ) < 0 := by
  constructor
  · unfold y_amount_future
    rw [show min (1/9 : ℝ) 4 = 1/9 from min_eq_left (by norm_num),
      sqrt_ninth, Real.sqrt_one]
    norm_num
  · norm_num

/-! ### C4 -/

/-- C4 (code bug): the code's `IL = (V_hodl - V_lp)/V_hodl` is nonnegative,
not `≤ 0`: at `L = 1, pmin = 1, pmax = 4, p = 1, p_new = 4` it evaluates to
`+1/2`, contradicting the script's own markdown ("always ≤ 0"). -/
theorem C4_il_positive_at_sample :
    IL_eval 1 1 4 1 4 = Except.ok (1/2) ∧ (0 : ℝ) < 1/2 := by
  have hxi : x_amount 1 1 4 = 1/2 := by
    unfold x_amount; rw [Real.sqrt_one, sqrt_four]; norm_num
  have hyi : y_amount 1 1 1 = 0 := by
    unfold y_amount; rw [Real.sqrt_one]; ring
  have hvh : V_hodl 1 1 4 1 4 = 1/2 := by
    unfold V_hodl; rw [hxi, hyi]; norm_num
  have hxn : x_amount_future 1 4 1 4 = 0 := by
    unfold x_amount_future
    rw [show max (4 : ℝ) 1 = 4 from max_eq_left (by norm_num), sqrt_four]
    norm_num
  have hyn : y_amount_future 1 4 1 4 = 1 := by
    unfold y_amount_future
    rw [min_self (4 : ℝ), sqrt_four, Real.sqrt_one]
    norm_num
  have hvl : V_lp 1 4 1 4 = 1/4 := by
    unfold V_lp; rw [hxn, hyn]; norm_num
  constructor
  · unfold IL_eval
    rw [hvh, hvl]
    rw [if_neg (show ¬(1/2 : ℝ) = 0 by norm_num)]
    simp only [Except.ok.injEq]
    norm_num
  · norm_num

/-! ### C5 -/

/-- Counterexample to C5 as stated: for the out-of-range initial price
`p = 1/4 < pmin = 1` (with `L = 1, pmax = 4`), `evaluate(L, range, p, p)`
yields `IL = -2`, not `0`: the initial composition is computed unclamped
while the new composition is clamped, so the two differ out of range. -/
theorem C5_out_of_range_not_zero :
    IL_eval 1 1 4 (1/4) (1/4) = Except.ok (-2) ∧ ((-2 : ℝ) ≠ 0) := by
  have hxi : x_amount 1 (1/4) 4 = 3/2 := by
    unfold x_amount; rw [sqrt_quarter, sqrt_four]; norm_num
  have hyi : y_amount 1 (1/4) 1 = -(1/2) := by
    unfold y_amount; rw [sqrt_quarter, Real.sqrt_one]; norm_num
  have hvh : V_hodl 1 (1/4) (1/4) 1 4 = -(1/2) := by
    unfold V_hodl; rw [hxi, hyi]; norm_num
  have hxn : x_amount_future 1 (1/4) 1 4 = 1/2 := by
    unfold x_amount_future
    rw [show max (1/4 : ℝ) 1 = 1 from max_eq_right (by norm_num),
      Real.sqrt_one, sqrt_four]
    norm_num
  have hyn : y_amount_future 1 (1/4) 1 4 = -(1/2) := by
    unfold y_amount_future
    rw [show min (1/4 : ℝ) 4 = 1/4 from min_eq_left (by norm_num),
      sqrt_quarter, Real.sqrt_one]
    norm_num
  have hvl : V_lp 1 (1/4) 1 4 = -(3/2) := by
    unfold V_lp; rw [hxn, hyn]; norm_num
  refine ⟨?_, by norm_num⟩
  unfold IL_eval
  rw [hvh, hvl]
  rw [if_neg (show ¬(-(1/2) : ℝ) = 0 by norm_num)]
  simp only [Except.ok.injEq]
  norm_num

/-- C5 (corrected): for an initial price inside the range,
`pmin ≤ p ≤ pmax`, the initial and new compositions coincide when
`p_new = p`, so `evaluate(L, range, p, p).il = 0` exactly, provided
`V_hodl ≠ 0`. -/
theorem C5_identity_il_in_range (L pmin pmax p : ℝ) (h1 : pmin ≤ p) (h2 : p ≤ pmax)
    (hv : V_hodl L p p pmin pmax ≠ 0) :
    IL_eval L pmin pmax p p = Except.ok 0 := by
  have hx : x_amount_future L p pmin pmax = x_amount L p pmax := by
    unfold x_amount_future x_amount; rw [max_eq_left h1]
  have hy : y_amount_future L p pmin pmax = y_amount L p pmin := by
    unfold y_amount_future y_amount; rw [min_eq_left h2]
  have hvl : V_lp L p pmin pmax = V_hodl L p p pmin pmax := by
    unfold V_lp V_hodl; rw [hx, hy]
  unfold IL_eval
  rw [if_neg hv, hvl, sub_self, zero_div]

/-- Witness for C5 at `L = 1, pmin = 1, pmax = 4, p = 1`, where
`V_hodl = 1/2 ≠ 0` and the identity IL is exactly `0`. -/
theorem C5_identity_il_in_range_witness : IL_eval 1 1 4 1 1 = Except.ok 0 := by
  have hv : V_hodl 1 1 1 1 4 ≠ 0 := by
    unfold V_hodl x_amount y_amount
    rw [Real.sqrt_one, sqrt_four]
    norm_num
  exact C5_identity_il_in_range 1 1 4 1 (by norm_num) (by norm_num) hv

/-! ### C6 -/

/-- C6 (confirmed): under the stated preconditions the X-asset solver returns
exactly `p * amount / (2*sqrt(p) - sqrt(pmin) - p/sqrt(pmax))` when the
denominator is positive, and signals `invalidRange` (the not-a-number
sentinel of the reference) when the denominator is `≤ 0`. -/
theorem C6_solver_dichotomy (x p pmin pmax : ℝ) (hx : 0 ≤ x) (hp : 0 < p)
    (hm : 0 < pmin) (hM : 0 < pmax) :
    (0 < 2 * Real.sqrt p - Real.sqrt pmin - p / Real.sqrt pmax →
      compute_L_from_x x p pmin pmax =
        Except.ok (p * x / (2 * Real.sqrt p - Real.sqrt pmin - p / Real.sqrt pmax))) ∧
    (2 * Real.sqrt p - Real.sqrt pmin - p / Real.sqrt pmax ≤ 0 →
      compute_L_from_x x p pmin pmax = Except.error CalcError.invalidRange) := by
  constructor
  · intro h
    unfold compute_L_from_x
    rw [if_neg (not_le.mpr h)]
  · intro h
    unfold compute_L_from_x
    rw [if_pos h]

/-- Witness for C6 at `x = 1, p = 1, pmin = 4, pmax = 1`, where the
denominator is `2 - 2 - 1 = -1 ≤ 0` and the solver signals `invalidRange`. -/
theorem C6_solver_dichotomy_witness :
    compute_L_from_x 1 1 4 1 = Except.error CalcError.invalidRange := by
  have h : 2 * Real.sqrt 1 - Real.sqrt 4 - 1 / Real.sqrt 1 ≤ 0 := by
    rw [Real.sqrt_one, sqrt_four]; norm_num
  exact (C6_solver_dichotomy 1 1 4 1 (by norm_num) (by norm_num) (by norm_num)
    (by norm_num)).2 h

/-! ### C7 -/

/-- Counterexample to C7 as stated: at `amount = 1, p = 1 ≤ pmin = 4` the
Y-asset solver does not signal `InvalidRange`; it silently returns the
negative value `-1`. -/
theorem C7_silent_negative :
    compute_L_from_y 1 1 4 = Except.ok (-1) ∧ ((-1 : ℝ) < 0) := by
  refine ⟨?_, by norm_num⟩
  unfold compute_L_from_y
  rw [Real.sqrt_one, sqrt_four]
  rw [if_neg (show ¬(1 - 2 : ℝ) = 0 by norm_num)]
  simp only [Except.ok.injEq]
  norm_num

/-- C7 (corrected): the Y-asset solver applies
`amount / (sqrt(p) - sqrt(pmin))` with no validation: for `p < pmin` it
silently returns that (nonpositive) value rather than any typed failure, and
at `p = pmin` the division itself fails with a division by zero — never with
`InvalidRange`. -/
theorem C7_y_solver_behavior (y p pmin : ℝ) (hy : 0 ≤ y) (hp : 0 ≤ p)
    (hlt : p < pmin) :
    compute_L_from_y y p pmin = Except.ok (y / (Real.sqrt p - Real.sqrt pmin)) ∧
    y / (Real.sqrt p - Real.sqrt pmin) ≤ 0 ∧
    compute_L_from_y y pmin pmin = Except.error CalcError.divisionByZero := by
  have hss : Real.sqrt p < Real.sqrt pmin := Real.sqrt_lt_sqrt hp hlt
  have hne : Real.sqrt p - Real.sqrt pmin ≠ 0 := sub_ne_zero_of_ne (ne_of_lt hss)
  refine ⟨?_, ?_, ?_⟩
  · unfold compute_L_from_y
    rw [if_neg hne]
  · exact div_nonpos_iff.mpr (Or.inl ⟨hy, by linarith⟩)
  · unfold compute_L_from_y
    rw [if_pos (sub_self (Real.sqrt pmin))]

/-- Witness for C7 at `amount = 1, p = 1, pmin = 4`: the solver returns the
silent value `1 / (1 - 2) = -1 ≤ 0`, and fails with division by zero at
`p = pmin`. -/
theorem C7_y_solver_behavior_witness :
    compute_L_from_y 1 1 4 = Except.ok (1 / (Real.sqrt 1 - Real.sqrt 4)) ∧
    1 / (Real.sqrt 1 - Real.sqrt 4) ≤ 0 ∧
    compute_L_from_y 1 4 4 = Except.error CalcError.divisionByZero :=
  C7_y_solver_behavior 1 1 4 (by norm_num) (by norm_num) (by norm_num)

/-! ### C8 -/

/-- C8 (confirmed): for positive `p_new`, the IL evaluation signals a
division by zero exactly when `V_hodl = 0` (and otherwise returns a value),
and for `L = 0` every composition is `(0, 0)`, `V_hodl = 0`, and the IL
computation signals the division by zero. -/
theorem C8_division_by_zero_signaling (L pmin pmax p pn : ℝ) (hpn : 0 < pn) :
    (IL_eval L pmin pmax p pn = Except.error CalcError.divisionByZero ↔
      V_hodl L p pn pmin pmax = 0) ∧
    x_amount 0 p pmax = 0 ∧ y_amount 0 p pmin = 0 ∧
    x_amount_future 0 pn pmin pmax = 0 ∧ y_amount_future 0 pn pmin pmax = 0 ∧
    IL_eval 0 pmin pmax p pn = Except.error CalcError.divisionByZero := by
  have hx0 : x_amount 0 p pmax = 0 := by unfold x_amount; ring
  have hy0 : y_amount 0 p pmin = 0 := by unfold y_amount; ring
  have hxf0 : x_amount_future 0 pn pmin pmax = 0 := by unfold x_amount_future; ring
  have hyf0 : y_amount_future 0 pn pmin pmax = 0 := by unfold y_amount_future; ring
  refine ⟨?_, hx0, hy0, hxf0, hyf0, ?_⟩
  · unfold IL_eval
    by_cases h : V_hodl L p pn pmin pmax = 0
    · rw [if_pos h]
      simp [h]
    · rw [if_neg h]
      simp [h]
  · unfold IL_eval
    rw [if_pos (show V_hodl 0 p pn pmin pmax = 0 by
      unfold V_hodl; rw [hx0, hy0]; ring)]

/-- Witness for C8 at `L = 0, pmin = 1, pmax = 4, p = 1, p_new = 1`. -/
theorem C8_division_by_zero_signaling_witness :
    (IL_eval 0 1 4 1 1 = Except.error CalcError.divisionByZero ↔
      V_hodl 0 1 1 1 4 = 0) ∧
    x_amount 0 1 4 = 0 ∧ y_amount 0 1 1 = 0 ∧
    x_amount_future 0 1 1 4 = 0 ∧ y_amount_future 0 1 1 4 = 0 ∧
    IL_eval 0 1 4 1 1 = Except.error CalcError.divisionByZero :=
  C8_division_by_zero_signaling 0 1 4 1 1 (by norm_num)

/-! ### C9 -/

/-- Counterexample to C9 as stated: with `L = 0` the sample at price `2` has
`V_hodl = 0`, and the loop neither fails nor omits it — the non-finite numpy
quotient is appended, so the output is the one-entry list holding the
`none` placeholder, while the claim's omission semantics (`IL_curve_spec`)
yields the empty sequence. -/
theorem C9_zero_vhodl_nan_not_omitted :
    IL_vals 0 1 4 1 (2 :: []) = [none] ∧
    IL_curve_spec 0 1 4 1 (2 :: []) = [] ∧
    ((none : Option ℝ) :: [] ≠ []) := by
  have hx0 : x_amount 0 1 4 = 0 := by unfold x_amount; ring
  have hy0 : y_amount 0 1 1 = 0 := by unfold y_amount; ring
  have hpt : IL_point 0 1 4 (x_amount 0 1 4) (y_amount 0 1 1) 2 = none := by
    unfold IL_point
    rw [if_pos (show x_amount 0 1 4 + y_amount 0 1 1 / 2 = 0 by
      rw [hx0, hy0]; norm_num)]
  refine ⟨?_, ?_, by simp⟩
  · unfold IL_vals
    simp [hpt]
  · unfold IL_curve_spec
    simp [hpt]

/-- C9 (corrected): the curve loop is a pure map of the per-sample IL
evaluation in input order, with one output entry per sample; when no sample
has `V_hodl = 0`, every entry is the defined quotient.  A sample with
`V_hodl = 0` is not omitted and causes no failure: its non-finite numpy
quotient is appended like any other entry. -/
theorem C9_pure_ordered_map (L pmin pmax p0 : ℝ) (ps : List ℝ)
    (h : ∀ q ∈ ps, x_amount L p0 pmax + y_amount L p0 pmin / q ≠ 0) :
    (IL_vals L pmin pmax p0 ps).length = ps.length ∧
    IL_vals L pmin pmax p0 ps = ps.map (fun q => some (
      (x_amount L p0 pmax + y_amount L p0 pmin / q -
        (x_amount_future L q pmin pmax + y_amount_future L q pmin pmax / q)) /
      (x_amount L p0 pmax + y_amount L p0 pmin / q))) := by
  constructor
  · unfold IL_vals
    exact List.length_map _ _
  · unfold IL_vals
    apply List.map_congr_left
    intro q hq
    unfold IL_point
    rw [if_neg (h q hq)]

/-- Witness for C9 at `L = 1, pmin = 1, pmax = 4, p_initial = 1` over the
one-sample grid `[1]`, where `V_hodl = 1/2 ≠ 0`. -/
theorem C9_pure_ordered_map_witness :
    (IL_vals 1 1 4 1 (1 :: [])).length = (1 :: [] : List ℝ).length ∧
    IL_vals 1 1 4 1 (1 :: []) = (1 :: [] : List ℝ).map (fun q => some (
      (x_amount 1 1 4 + y_amount 1 1 1 / q -
        (x_amount_future 1 q 1 4 + y_amount_future 1 q 1 4 / q)) /
      (x_amount 1 1 4 + y_amount 1 1 1 / q))) := by
  apply C9_pure_ordered_map
  intro q hq
  have hq1 : q = 1 := by simpa using hq
  subst hq1
  unfold x_amount y_amount
  rw [Real.sqrt_one, sqrt_four]
  norm_num
